import Mathlib

/-!
Verification of `src/src/components/Charts/CutEdgesSection.js` (districtr).

The file holds two pieces: a stubbed chart panel (`CutEdgesSection`) and the
COI visualization plugin.  Our shallow embedding models:

  * a `unitMap` (JS object mapping cluster identifiers to objects mapping
    COI identifiers to arrays of geoids) as an association list preserving
    `Object.entries` iteration order;
  * the reverse mapping (a JS object keyed by geoid) as a partial map
    `String → Option RMEntry`, where an entry carries the single `"cluster"`
    string and the `"coi"` array stored by the code;
  * the DOM as a list of `Element` records carrying the fields the code
    reads (`localName`, `classList`, the associated control's `checked`
    state) and writes (`style.pointer-events`, `style.opacity`), with a
    numeric `id` standing for JS object identity;
  * side effects (layer opacity, style assignments) as explicit state
    passed through and returned from the modelled callbacks;
  * runtime failures (ReferenceError / TypeError) as `Except JSError`.
-/

/-- Geoids, cluster names and COI names are JS strings. -/
abbrev Geoid := String

/-- A `unitMap`: clusters (in `Object.entries` order) mapping COI
identifiers to arrays of geoids. -/
abbrev UnitMap := List (String × List (String × List Geoid))

/-- One entry of the reverse mapping: the object
`\x7b "cluster": ..., "coi": [...] \x7d` built by `createReverseMapping`. -/
structure RMEntry where
  cluster : String
  coi : List String
deriving DecidableEq, Repr

/-- The reverse mapping object, as a partial map keyed by geoid. -/
abbrev ReverseMapping := Geoid → Option RMEntry

/-- JS property assignment `reverseMapping[geoid] = entry`. -/
def rmUpdate (rm : ReverseMapping) (geoid : Geoid) (entry : RMEntry) : ReverseMapping :=
  fun g => if g = geoid then some entry else rm g

/-- Body of the innermost loop of `createReverseMapping` (lines 165-178):
for one `geoid`, extend its COI list if it already has an entry (the
`if (reverseMapping[geoid])` truthiness test; objects are always truthy),
then store `\x7b cluster: clusterIdentifier, coi: cois \x7d`. -/
def processGeoid (clusterIdentifier coiid : String) (reverseMapping : ReverseMapping)
    (geoid : Geoid) : ReverseMapping :=
  let cois : List String :=
    match reverseMapping geoid with
    | some entry => entry.coi ++ [coiid]
    | none => [coiid]
  rmUpdate reverseMapping geoid { cluster := clusterIdentifier, coi := cois }

/-- Middle loop of `createReverseMapping` (line 164): iterate over the
entries `(coiid, geoids)` of one cluster. -/
def processCoi (clusterIdentifier : String) (rm : ReverseMapping)
    (p : String × List Geoid) : ReverseMapping :=
  p.2.foldl (processGeoid clusterIdentifier p.1) rm

/-- Outer loop of `createReverseMapping` (line 163): iterate over the
entries `(clusterIdentifier, cluster)` of the unit map. -/
def processCluster (rm : ReverseMapping)
    (p : String × List (String × List Geoid)) : ReverseMapping :=
  p.2.foldl (processCoi p.1) rm

/-- `createReverseMapping` (lines 160-183): the triple nested loop starting
from the empty object. -/
def createReverseMapping (unitMap : UnitMap) : ReverseMapping :=
  unitMap.foldl processCluster (fun _ => none)

/-! ### Specification-side description of the reverse mapping

The following definitions are not part of the embedding; they state, in
direct recursive form, which data the claims say the reverse mapping holds.
-/

/-- Does `g` occur in some geoid array of some cluster of `u`? -/
def occursB (u : UnitMap) (g : Geoid) : Bool :=
  u.any (fun p => p.2.any (fun q => q.2.contains g))

/-- The cluster identifiers (in iteration order) whose cluster holds `g`
in some COI's geoid array. -/
def clustersContaining (u : UnitMap) (g : Geoid) : List String :=
  (u.filter (fun p => p.2.any (fun q => q.2.contains g))).map Prod.fst

/-- COI identifiers contributed by one cluster for geoid `g`: one copy of
the COI identifier per occurrence of `g` in that COI's geoid array, in
iteration order. -/
def coisOfCluster (g : Geoid) : List (String × List Geoid) → List String
  | [] => []
  | q :: rest => List.replicate (q.2.count g) q.1 ++ coisOfCluster g rest

/-- All COI identifiers accumulated for geoid `g` across the whole unit
map, in iteration order. -/
def coisOf (g : Geoid) : UnitMap → List String
  | [] => []
  | p :: rest => coisOfCluster g p.2 ++ coisOf g rest

/-- The last element of a list of cluster identifiers, if any. -/
def lastOf : List String → Option String
  | [] => none
  | [c] => some c
  | _ :: c :: rest => lastOf (c :: rest)

/-- The `"coi"` list currently stored for `g`, or `[]` if `g` has no entry. -/
def prevCois (rm : ReverseMapping) (g : Geoid) : List String :=
  match rm g with
  | some entry => entry.coi
  | none => []

/-! ### DOM and checkbox model

The code reads checkboxes through `document.getElementsByClassName` and
inspects `localName`, `classList`, `control.checked`; it writes
`style["pointer-events"]` and `style["opacity"]`.  We model the document as
a list of `Element` records in document order; the `id` field stands for JS
object identity, and `checked` for the associated control's checked state.
Opacities are exact rationals (they are only stored, never computed with).
-/

/-- A DOM element, restricted to the fields the code touches. -/
structure Element where
  id : Nat
  localName : String
  classList : List String
  checked : Bool
  pointerEvents : String
  opacity : ℚ
deriving DecidableEq, Repr

/-- `document.getElementsByClassName(c)`, in document order. -/
def byClass (dom : List Element) (c : String) : List Element :=
  dom.filter (fun e => e.classList.contains c)

/-- `retrieveCheckboxes` (lines 46-66): all-visible checkboxes, then either
the elements carrying the cluster identifier as a class (when `cluster` is
truthy — a non-null, non-empty string) or the cluster and COI checkboxes;
finally keep only `label` elements. -/
def retrieveCheckboxes (dom : List Element) (cluster : Option String) : List Element :=
  let checkboxes := byClass dom "allvisible-checkbox"
  let checkboxes :=
    match cluster with
    | some c =>
      if c = "" then
        checkboxes ++ byClass dom "cluster-checkbox" ++ byClass dom "coi-checkbox"
      else
        checkboxes ++ byClass dom c
    | none => checkboxes ++ byClass dom "cluster-checkbox" ++ byClass dom "coi-checkbox"
  checkboxes.filter (fun e => e.localName == "label")

/-- A status object pushed by `getCheckboxStatuses` (lines 97-101). -/
structure CheckboxStatus where
  cluster : Option String
  coi : Option String
  checked : Bool
deriving DecidableEq, Repr

/-- The loop of `getCheckboxStatuses` (lines 83-102): `coi` is
`classList[3]` (possibly undefined), a checkbox is skipped when it has more
than three classes and its COI class is not among `coiClasses`
(`includes(undefined)` is false, and a null `coiClasses` makes `included`
false). -/
def statusLoop (cluster : Option String) (coiClasses : Option (List String)) :
    List Element → List CheckboxStatus
  | [] => []
  | checkbox :: rest =>
    let coi := checkbox.classList[3]?
    let hasEnoughClasses : Bool := decide (checkbox.classList.length > 3)
    let included : Bool :=
      match coiClasses, coi with
      | some l, some c => l.contains c
      | _, _ => false
    if hasEnoughClasses && !included then statusLoop cluster coiClasses rest
    else ⟨cluster, coi, checkbox.checked⟩ :: statusLoop cluster coiClasses rest

/-- `coi.replaceAll(" ", "-")`: since the pattern is the single character
`" "`, replacing all occurrences is exactly mapping each space character to
a dash. -/
def replaceSpaces (s : String) : String :=
  String.mk (s.data.map (fun ch => if ch = ' ' then '-' else ch))

/-- `getCheckboxStatuses` (lines 74-105): `coiClasses` replaces spaces by
dashes in each provided COI name; a null `cois` yields a null
`coiClasses`. -/
def getCheckboxStatuses (dom : List Element) (cluster : Option String)
    (cois : Option (List String)) : List CheckboxStatus :=
  let coiClasses := cois.map (fun l => l.map (fun coi => replaceSpaces coi))
  statusLoop cluster coiClasses (retrieveCheckboxes dom cluster)

/-- `checkIfAllVisible` (lines 113-120): conjoin the `checked` flags of all
statuses, starting from `true`. -/
def checkIfAllVisible (dom : List Element) (cluster : Option String)
    (cois : Option (List String)) : Bool :=
  (getCheckboxStatuses dom cluster cois).foldl (fun b s => b && s.checked) true

/-- A map feature: the code only reads `feature.properties[identifier]`. -/
structure Feature where
  properties : String → String

/-- `watchTooltips` (lines 191-230).  The first component is the returned
tooltip function: given the document state and the hovered features it
yields the rendered COI-name list (the code maps `reverseMapping[geoid]["coi"]`
over centered divs) or `null`.  The second component records the arguments
of the `createReverseMapping` invocations performed while `watchTooltips`
itself runs: exactly one, at line 192. -/
def watchTooltips (unitMap : UnitMap) (identifier : String) :
    (List Element → List Feature → Option (List String)) × List UnitMap :=
  let reverseMapping := createReverseMapping unitMap
  (fun dom features =>
    match features with
    | [] => none
    | feature :: _ =>
      let geoid := feature.properties identifier
      match reverseMapping geoid with
      | some entry =>
        if checkIfAllVisible dom (some entry.cluster) (some entry.coi) then
          some entry.coi
        else none
      | none => none,
   [unitMap])

/-- JS runtime exceptions surfaced by the modelled code. -/
inductive JSError where
  | referenceError : String → JSError
  | typeError : String → JSError
deriving DecidableEq, Repr

/-- The click handler's accesses `reverseMapping[geoid]["cluster"]` and
`reverseMapping[geoid]["coi"]` (lines 138-139): reading a property of
`undefined` throws a TypeError; otherwise both fields of the stored entry
are returned. -/
def onFeatureClickedAccess (reverseMapping : ReverseMapping) (geoid : Geoid) :
    Except JSError (String × List String) :=
  match reverseMapping geoid with
  | some entry => Except.ok (entry.cluster, entry.coi)
  | none => Except.error (JSError.typeError "cannot read property of undefined")

/-- `onFeatureClicked` (lines 122-153): at registration time it builds the
reverse mapping once (line 125) and installs the click handler.  First
component: the reverse mapping the handler closes over; second component:
the arguments of the `createReverseMapping` invocations it performs
(exactly one, at line 125).  The unused `activePatternMatch` parameter of
the JS function is omitted. -/
def onFeatureClicked (units : String) (unitMap : UnitMap) (identifier : String) :
    ReverseMapping × List UnitMap :=
  (createReverseMapping unitMap, [unitMap])

/-- The `then`-callback of `CoiVisualizationPlugin` (lines 436-492), kept to
the parts that touch `createReverseMapping`: it calls `watchTooltips`
(line 445) and `onFeatureClicked` (line 491), each of which invokes
`createReverseMapping` on the session's `unitMap` once; no other operation
of the callback (`displayCOIs`, `createCOICheckbox`, the cluster sections,
`initialStyles`, the `Tooltip` construction) invokes it.  Components: the
tooltip function, the click handler's reverse mapping, and the ordered list
of arguments passed to `createReverseMapping` during the session. -/
def coiVisualizationPluginSetup (units : String) (unitMap : UnitMap) :
    (List Element → List Feature → Option (List String)) × ReverseMapping × List UnitMap :=
  let tooltip := watchTooltips unitMap "GEOID20"
  let click := onFeatureClicked units unitMap "GEOID20"
  (tooltip.1, click.1, tooltip.2 ++ click.2)

/-- The style assignment of `displayCOIs`'s loop body (lines 262-263). -/
def setCheckboxStyle (checked : Bool) (e : Element) : Element :=
  { e with
    pointerEvents := if checked then "auto" else "none"
    opacity := if checked then 1 else 1/2 }

/-- The loop of `displayCOIs` (lines 261-265), one iteration per retrieved
checkbox (identified by its `id`): style the checkbox and call
`units.setOpacity` — note the `setOpacity` call is inside the loop, so it
runs once per checkbox and not at all when the list is empty. -/
def displayLoop (checked : Bool) : List Nat → List Element × ℚ → List Element × ℚ
  | [], st => st
  | i :: rest, (dom, _) =>
    displayLoop checked rest
      (dom.map (fun e => if e.id == i then setCheckboxStyle checked e else e),
       if checked then 1/3 else 0)

/-- The callback returned by `displayCOIs` (lines 254-267), with the
document state and the units layer's opacity passed explicitly:
`retrieveCheckboxes().slice(1)` drops the first (top-level) checkbox, then
the loop styles each remaining checkbox and sets the layer opacity. -/
def displayCOIs (dom : List Element) (layerOpacity : ℚ) (checked : Bool) :
    List Element × ℚ :=
  displayLoop checked (((retrieveCheckboxes dom none).drop 1).map Element.id)
    (dom, layerOpacity)

/-- The resolution of the identifier `geoids` inside the callback returned
by `toggleCluster` (line 421).  No enclosing scope binds `geoids`: not the
callback body (it binds only `statuses`), not `toggleCluster` (parameters
`cluster`, `units`, `unitMap`), and not the module scope (the only `geoids`
bindings in the file are local to `toggleIndividualCOI` and
`createReverseMapping`).  The lookup therefore fails. -/
def toggleClusterScopeGeoids : Option (List Geoid) := none

/-- A recorded call `opacityStyleExpression(units, geoids, checked)`
(the imported layer-styling routine, applied to the geoids to mask). -/
structure OpacityCall where
  units : String
  geoids : List Geoid
  checked : Bool
deriving DecidableEq, Repr

/-- The callback returned by `toggleCluster` (lines 412-423): it computes
all checkbox statuses (line 417), then evaluates the unbound identifier
`geoids` to pass it to `opacityStyleExpression` (line 421) — which throws a
ReferenceError.  On the (non-existent) success path it would return the
statuses and the styling call. -/
def toggleCluster (cluster : String) (units : String) (unitMap : UnitMap)
    (dom : List Element) (checked : Bool) :
    Except JSError (List CheckboxStatus × OpacityCall) :=
  let statuses := getCheckboxStatuses dom none none
  match toggleClusterScopeGeoids with
  | none => Except.error (JSError.referenceError "geoids is not defined")
  | some geoids => Except.ok (statuses, ⟨units, geoids, checked⟩)

/-- The data slots of the template returned by `CutEdgesSection`: the
number rendered into `#num-cut-edges` and the list rendered into
`#cut-edges` (the surrounding markup is constant text). -/
structure CutEdgesTemplate where
  numCutEdges : Nat
  cutEdges : List String
deriving DecidableEq, Repr

/-- `CutEdgesSection` (first file, lines 6-33): ignores its three arguments
and renders `numCutEdges = 0` and `cutEdges = []`. -/
def CutEdgesSection {α β γ : Type} (state : α) (uiState : β) (dispatch : γ) :
    CutEdgesTemplate :=
  let numCutEdges : Nat := 0
  let cutEdges : List String := []
  ⟨numCutEdges, cutEdges⟩

/-! ### Concrete sample inputs used by witnesses and counterexamples -/

/-- One cluster `c1` with COIs `k1` (units `g1`, `g2`) and `k2` (unit `g1`). -/
def sampleUnitMap : UnitMap := [("c1", [("k1", ["g1", "g2"]), ("k2", ["g1"])])]

/-- Two clusters both holding `g1`, to exercise the overwrite of the
`cluster` field. -/
def sampleUnitMap2 : UnitMap := [("c1", [("k1", ["g1"])]), ("c2", [("k2", ["g1"])])]

/-- A feature whose every property is the geoid `g1`. -/
def sampleFeature : Feature := ⟨fun _ => "g1"⟩

/-- A small document: the top-level toggle, the `c1` cluster toggle, one
COI toggle of `c1`, and a description paragraph sharing its classes. -/
def sampleDom : List Element :=
  [⟨0, "label", ["toggle", "allvisible-checkbox"], true, "auto", 1⟩,
   ⟨1, "label", ["toggle", "cluster-checkbox", "c1"], true, "auto", 1⟩,
   ⟨2, "label", ["toggle", "coi-checkbox", "c1", "k1"], true, "auto", 1⟩,
   ⟨3, "p", ["c1", "k1"], false, "auto", 1⟩]

theorem processGeoid_self (cid k : String) (rm : ReverseMapping) (g : Geoid) :
    processGeoid cid k rm g g = some ⟨cid, prevCois rm g ++ [k]⟩ := by
  unfold processGeoid rmUpdate prevCois
  cases rm g <;> simp

theorem processGeoid_other (cid k : String) (rm : ReverseMapping) (a g : Geoid)
    (h : g ≠ a) : processGeoid cid k rm a g = rm g := by
  unfold processGeoid rmUpdate
  simp [h]

theorem geoid_foldl (cid k : String) :
    ∀ (gs : List Geoid) (rm : ReverseMapping) (g : Geoid),
    (gs.foldl (processGeoid cid k) rm) g =
      if g ∈ gs then some ⟨cid, prevCois rm g ++ List.replicate (gs.count g) k⟩
      else rm g := by
  intro gs
  induction gs with
  | nil => intro rm g; simp
  | cons a gs ih =>
    intro rm g
    rw [List.foldl_cons, ih]
    by_cases hga : g = a
    · subst hga
      have hprev : prevCois (processGeoid cid k rm g) g = prevCois rm g ++ [k] := by
        unfold prevCois
        rw [processGeoid_self]
        rfl
      by_cases hmem : g ∈ gs
      · rw [if_pos hmem, if_pos (List.mem_cons_self g gs), hprev]
        rw [List.count_cons_self, List.replicate_succ, List.append_assoc]
        simp
      · rw [if_neg hmem, if_pos (List.mem_cons_self g gs), processGeoid_self]
        have hc : gs.count g = 0 := by
          rw [List.count_eq_zero]
          exact hmem
        rw [List.count_cons_self, hc]
        simp
    · have hrm : processGeoid cid k rm a g = rm g := processGeoid_other cid k rm a g hga
      have hprev : prevCois (processGeoid cid k rm a) g = prevCois rm g := by
        unfold prevCois
        rw [hrm]
      by_cases hmem : g ∈ gs
      · have : g ∈ a :: gs := List.mem_cons_of_mem a hmem
        rw [if_pos hmem, if_pos this, hprev]
        have : (a :: gs).count g = gs.count g := by
          rw [List.count_cons]
          simp [Ne.symm hga]
        rw [this]
      · have : g ∉ a :: gs := by
          simp [hga, hmem]
        rw [if_neg hmem, if_neg this, hrm]

theorem coisOfCluster_eq_nil (g : Geoid) (cl : List (String × List Geoid))
    (h : cl.any (fun q => q.2.contains g) = false) : coisOfCluster g cl = [] := by
  induction cl with
  | nil => rfl
  | cons q rest ih =>
    rw [List.any_cons, Bool.or_eq_false_iff] at h
    have hc : q.2.count g = 0 := by
      rw [List.count_eq_zero]
      intro hmem
      have : q.2.contains g = true := List.elem_eq_true_of_mem hmem
      rw [h.1] at this
      exact Bool.false_ne_true this
    unfold coisOfCluster
    rw [hc, ih h.2]
    rfl

theorem coisOfCluster_cons (g : Geoid) (q : String × List Geoid)
    (rest : List (String × List Geoid)) :
    coisOfCluster g (q :: rest) = List.replicate (q.2.count g) q.1 ++ coisOfCluster g rest :=
rfl

theorem coi_foldl (cid : String) :
    ∀ (cl : List (String × List Geoid)) (rm : ReverseMapping) (g : Geoid),
    (cl.foldl (processCoi cid) rm) g =
      if cl.any (fun q => q.2.contains g) then
        some ⟨cid, prevCois rm g ++ coisOfCluster g cl⟩
      else rm g := by
  intro cl
  induction cl with
  | nil => intro rm g; simp
  | cons q rest ih =>
    intro rm g
    rw [List.foldl_cons, ih]
    cases hq2 : q.2.contains g with
    | true =>
      have hg : g ∈ q.2 := List.mem_of_elem_eq_true hq2
      have hq : processCoi cid rm q g =
          some ⟨cid, prevCois rm g ++ List.replicate (q.2.count g) q.1⟩ := by
        rw [show processCoi cid rm q g =
              (if g ∈ q.2 then
                some ⟨cid, prevCois rm g ++ List.replicate (q.2.count g) q.1⟩
              else rm g) from geoid_foldl cid q.1 q.2 rm g, if_pos hg]
      have hprev : prevCois (processCoi cid rm q) g =
          prevCois rm g ++ List.replicate (q.2.count g) q.1 := by
        unfold prevCois
        rw [hq]
        rfl
      cases hrest : rest.any (fun p => p.2.contains g) with
      | false =>
        simp [List.any_cons, hq2, hrest, hq, coisOfCluster_cons,
          coisOfCluster_eq_nil g rest hrest, hg]
      | true =>
        simp [List.any_cons, hq2, hrest, hprev, coisOfCluster_cons,
          List.append_assoc, hg]
    | false =>
      have hg : g ∉ q.2 := by
        intro hmem
        have hmm : q.2.contains g = true := List.elem_eq_true_of_mem hmem
        rw [hq2] at hmm
        exact Bool.false_ne_true hmm
      have hq : processCoi cid rm q g = rm g := by
        rw [show processCoi cid rm q g =
              (if g ∈ q.2 then
                some ⟨cid, prevCois rm g ++ List.replicate (q.2.count g) q.1⟩
              else rm g) from geoid_foldl cid q.1 q.2 rm g, if_neg hg]
      have hcount : q.2.count g = 0 := by
        rw [List.count_eq_zero]
        exact hg
      have hprev : prevCois (processCoi cid rm q) g = prevCois rm g := by
        unfold prevCois
        rw [hq]
      cases hrest : rest.any (fun p => p.2.contains g) with
      | false =>
        rw [List.any_cons, hq2, hrest]
        simp [hq]
      | true =>
        rw [List.any_cons, hq2, hrest, hprev]
        simp [coisOfCluster_cons, hcount]

theorem coisOf_cons (g : Geoid) (p : String × List (String × List Geoid)) (rest : UnitMap) :
    coisOf g (p :: rest) = coisOfCluster g p.2 ++ coisOf g rest :=
rfl

theorem lastOf_isSome (c : String) : ∀ (l : List String), (lastOf (c :: l)).isSome = true := by
  intro l
  induction l generalizing c with
  | nil => rfl
  | cons d r ih => exact ih d

theorem lastOf_eq_none {l : List String} (h : lastOf l = none) : l = [] := by
  cases l with
  | nil => rfl
  | cons c r =>
    have := lastOf_isSome c r
    rw [h] at this
    simp at this

theorem lastOf_cons_of_some {l : List String} {c : String} (x : String)
    (h : lastOf l = some c) : lastOf (x :: l) = some c := by
  cases l with
  | nil => simp [lastOf] at h
  | cons d r => exact h

theorem coisOf_eq_nil (g : Geoid) :
    ∀ (u : UnitMap), clustersContaining u g = [] → coisOf g u = [] := by
  intro u
  induction u with
  | nil => intro _; rfl
  | cons p rest ih =>
    intro h
    unfold clustersContaining at h
    rw [List.filter_cons] at h
    cases hcl : p.2.any (fun q => q.2.contains g) with
    | true =>
      rw [hcl] at h
      simp at h
    | false =>
      rw [hcl] at h
      simp only [Bool.false_eq_true, if_false] at h
      rw [coisOf_cons, coisOfCluster_eq_nil g p.2 hcl, ih h]
      rfl

theorem cluster_foldl :
    ∀ (u : UnitMap) (rm : ReverseMapping) (g : Geoid),
    (u.foldl processCluster rm) g =
      match lastOf (clustersContaining u g) with
      | some c => some ⟨c, prevCois rm g ++ coisOf g u⟩
      | none => rm g := by
  intro u
  induction u with
  | nil => intro rm g; simp [clustersContaining, lastOf]
  | cons p rest ih =>
    intro rm g
    rw [List.foldl_cons, ih]
    have hp : processCluster rm p g =
        (if p.2.any (fun q => q.2.contains g) then
          some ⟨p.1, prevCois rm g ++ coisOfCluster g p.2⟩
        else rm g) := coi_foldl p.1 p.2 rm g
    cases hcl : p.2.any (fun q => q.2.contains g) with
    | true =>
      have hval : processCluster rm p g = some ⟨p.1, prevCois rm g ++ coisOfCluster g p.2⟩ := by
        rw [hp, hcl]
        simp
      have hprev : prevCois (processCluster rm p) g = prevCois rm g ++ coisOfCluster g p.2 := by
        unfold prevCois
        rw [hval]
        rfl
      have hcc : clustersContaining (p :: rest) g = p.1 :: clustersContaining rest g := by
        unfold clustersContaining
        rw [List.filter_cons, hcl]
        simp
      rw [hcc]
      cases hlast : lastOf (clustersContaining rest g) with
      | some c =>
        rw [lastOf_cons_of_some p.1 hlast]
        simp only [hprev, coisOf_cons, List.append_assoc]
      | none =>
        have hnil : clustersContaining rest g = [] := lastOf_eq_none hlast
        have hcoisrest : coisOf g rest = [] := coisOf_eq_nil g rest hnil
        rw [hnil]
        simp only [lastOf, hval, coisOf_cons, hcoisrest, List.append_nil]
    | false =>
      have hval : processCluster rm p g = rm g := by
        rw [hp, hcl]
        simp
      have hprev : prevCois (processCluster rm p) g = prevCois rm g := by
        unfold prevCois
        rw [hval]
      have hcc : clustersContaining (p :: rest) g = clustersContaining rest g := by
        unfold clustersContaining
        rw [List.filter_cons, hcl]
        simp
      have hcoisp : coisOfCluster g p.2 = [] := coisOfCluster_eq_nil g p.2 hcl
      rw [hcc]
      cases hlast : lastOf (clustersContaining rest g) with
      | some c => simp only [hprev, hval, coisOf_cons, hcoisp, List.nil_append]
      | none => simp only [hval]

/-- Full characterization of `createReverseMapping`: a geoid has an entry
exactly when it occurs somewhere in the unit map; the entry's `cluster`
field is the last cluster (in iteration order) holding the geoid, and its
`coi` list accumulates one COI identifier per occurrence across all
clusters, in iteration order. -/
theorem rm_char (u : UnitMap) (g : Geoid) :
    createReverseMapping u g =
      match lastOf (clustersContaining u g) with
      | some c => some ⟨c, coisOf g u⟩
      | none => none := by
  unfold createReverseMapping
  rw [cluster_foldl]
  cases lastOf (clustersContaining u g) <;> simp [prevCois]

theorem clustersContaining_nil_iff (u : UnitMap) (g : Geoid) :
    clustersContaining u g = [] ↔ occursB u g = false := by
  induction u with
  | nil => simp [clustersContaining, occursB]
  | cons p rest ih =>
    unfold clustersContaining occursB
    unfold clustersContaining occursB at ih
    rw [List.filter_cons, List.any_cons]
    cases hcl : p.2.any (fun q => q.2.contains g) with
    | true => simp [hcl]
    | false => simpa [hcl] using ih

theorem rm_isSome_iff_occursB (u : UnitMap) (g : Geoid) :
    (createReverseMapping u g).isSome = true ↔ occursB u g = true := by
  rw [rm_char]
  cases hlast : lastOf (clustersContaining u g) with
  | none =>
    have hnil : clustersContaining u g = [] := lastOf_eq_none hlast
    have hocc : occursB u g = false := (clustersContaining_nil_iff u g).mp hnil
    simp [hocc]
  | some c =>
    have hne : clustersContaining u g ≠ [] := by
      intro hnil
      rw [hnil] at hlast
      simp [lastOf] at hlast
    have hocc : occursB u g = true := by
      cases hb : occursB u g with
      | true => rfl
      | false => exact absurd ((clustersContaining_nil_iff u g).mpr hb) hne
    simp [hocc]

theorem mem_coisOfCluster {g k : String} {gs : List Geoid} :
    ∀ (cl : List (String × List Geoid)), (k, gs) ∈ cl → g ∈ gs →
      k ∈ coisOfCluster g cl := by
  intro cl
  induction cl with
  | nil => intro h; cases h
  | cons q rest ih =>
    intro h1 h2
    rw [coisOfCluster_cons]
    rcases List.mem_cons.mp h1 with heq | hmem
    · apply List.mem_append_left
      subst heq
      refine List.mem_replicate.mpr ⟨?_, rfl⟩
      intro hzero
      rw [List.count_eq_zero] at hzero
      exact hzero h2
    · exact List.mem_append_right _ (ih hmem h2)

theorem mem_coisOf {g k c : String} {gs : List Geoid} {cl : List (String × List Geoid)} :
    ∀ (u : UnitMap), (c, cl) ∈ u → (k, gs) ∈ cl → g ∈ gs → k ∈ coisOf g u := by
  intro u
  induction u with
  | nil => intro h; cases h
  | cons p rest ih =>
    intro h0 h1 h2
    rw [coisOf_cons]
    rcases List.mem_cons.mp h0 with heq | hmem
    · apply List.mem_append_left
      subst heq
      exact mem_coisOfCluster cl h1 h2
    · exact List.mem_append_right _ (ih hmem h1 h2)

theorem foldl_and_aux : ∀ (l : List CheckboxStatus) (b : Bool),
    l.foldl (fun b s => b && s.checked) b = (b && l.all (fun s => s.checked)) := by
  intro l
  induction l with
  | nil => intro b; simp
  | cons s rest ih =>
    intro b
    rw [List.foldl_cons, ih, List.all_cons, Bool.and_assoc]

theorem checkIfAllVisible_iff (dom : List Element) (cluster : Option String)
    (cois : Option (List String)) :
    checkIfAllVisible dom cluster cois = true ↔
      ∀ s ∈ getCheckboxStatuses dom cluster cois, s.checked = true := by
  unfold checkIfAllVisible
  rw [foldl_and_aux]
  simp [List.all_eq_true]

theorem statusLoop_none (cluster : Option String) :
    ∀ l : List Element, statusLoop cluster none l =
      (l.filter (fun c => !(decide (c.classList.length > 3)))).map
        (fun c => ⟨cluster, c.classList[3]?, c.checked⟩) := by
  intro l
  induction l with
  | nil => rfl
  | cons c rest ih =>
    rw [List.filter_cons]
    cases hlen : decide (c.classList.length > 3) with
    | true => simp [statusLoop, hlen, ih]
    | false => simp [statusLoop, hlen, ih]

theorem setCheckboxStyle_id (b : Bool) (e : Element) :
    (setCheckboxStyle b e).id = e.id :=
rfl

theorem setCheckboxStyle_idem (b : Bool) (e : Element) :
    setCheckboxStyle b (setCheckboxStyle b e) = setCheckboxStyle b e :=
rfl

theorem displayLoop_fst (b : Bool) :
    ∀ (ids : List Nat) (dom : List Element) (lay : ℚ),
    (displayLoop b ids (dom, lay)).1 =
      dom.map (fun e => if ids.contains e.id then setCheckboxStyle b e else e) := by
  intro ids
  induction ids with
  | nil =>
    intro dom lay
    simp [displayLoop]
  | cons i rest ih =>
    intro dom lay
    rw [show displayLoop b (i :: rest) (dom, lay) =
        displayLoop b rest
          (dom.map (fun e => if e.id == i then setCheckboxStyle b e else e),
           if b then 1/3 else 0) from rfl]
    rw [ih, List.map_map]
    congr 1
    funext e
    by_cases hei : e.id = i
    · simp only [Function.comp, hei, beq_self_eq_true, if_pos, if_true,
        setCheckboxStyle_id, setCheckboxStyle_idem, List.contains_cons, beq_self_eq_true,
        Bool.true_or, ite_self]
    · have hbeq : (e.id == i) = false := by
        simp [hei]
      simp only [Function.comp, hbeq, Bool.false_eq_true, if_false, List.contains_cons,
        hbeq, Bool.false_or]

theorem displayLoop_snd (b : Bool) :
    ∀ (ids : List Nat) (dom : List Element) (lay : ℚ),
    (displayLoop b ids (dom, lay)).2 =
      if ids.isEmpty then lay else if b then 1/3 else 0 := by
  intro ids
  induction ids with
  | nil => intro dom lay; rfl
  | cons i rest ih =>
    intro dom lay
    rw [show displayLoop b (i :: rest) (dom, lay) =
        displayLoop b rest
          (dom.map (fun e => if e.id == i then setCheckboxStyle b e else e),
           if b then 1/3 else 0) from rfl]
    rw [ih]
    simp [List.isEmpty_cons, ite_self]

/-- C1: for every unitMap, `createReverseMapping` returns an object whose
keys are exactly the geoids occurring in the unitMap, and whose entry for a
geoid `g` has a `coi` array containing every COI identifier `k` such that
`g` occurs in `unitMap[c][k]` for some cluster `c`. -/
theorem claim_c1 (u : UnitMap) (g : Geoid) :
    ((createReverseMapping u g).isSome = true ↔ occursB u g = true) ∧
    (∀ e : RMEntry, createReverseMapping u g = some e →
      ∀ (c k : String) (cl : List (String × List Geoid)) (gs : List Geoid),
        (c, cl) ∈ u → (k, gs) ∈ cl → g ∈ gs → k ∈ e.coi) := by
  refine ⟨rm_isSome_iff_occursB u g, ?_⟩
  intro e he c k cl gs hc hk hg
  have hchar := rm_char u g
  rw [he] at hchar
  cases hlast : lastOf (clustersContaining u g) with
  | none =>
    rw [hlast] at hchar
    exact Option.noConfusion hchar
  | some cc =>
    rw [hlast] at hchar
    have hchar2 : some e = some (⟨cc, coisOf g u⟩ : RMEntry) := hchar
    have hcoi : e.coi = coisOf g u := by
      rw [Option.some.inj hchar2]
    rw [hcoi]
    exact mem_coisOf u hc hk hg

theorem claim_c1_witness :
    ((createReverseMapping sampleUnitMap "g1").isSome = true) ∧
      "k2" ∈ (["k1", "k2"] : List String) :=
  ⟨(claim_c1 sampleUnitMap "g1").1.mpr (by decide),
   (claim_c1 sampleUnitMap "g1").2 ⟨"c1", ["k1", "k2"]⟩ (by decide) "c1" "k2"
     [("k1", ["g1", "g2"]), ("k2", ["g1"])] ["g1"] (by decide) (by decide) (by decide)⟩

/-- C2: the callback produced by `toggleCluster` never reaches
`opacityStyleExpression` with the cluster's geoids — evaluating the unbound
identifier `geoids` (line 421) throws a ReferenceError on every invocation,
for either value of `checked`. -/
theorem claim_c2 (cluster units : String) (unitMap : UnitMap)
    (dom : List Element) (checked : Bool) :
    toggleCluster cluster units unitMap dom checked =
      Except.error (JSError.referenceError "geoids is not defined") :=
rfl

/-- C3: for a hovered feature whose geoid is a key of the reverse mapping,
the tooltip function returned by `watchTooltips` yields exactly the COI
names of that geoid's entry when every checkbox status gathered for the
unit's hierarchy (all-COIs, its cluster, its COIs, via
`getCheckboxStatuses`) is checked, and yields null when any of them is
unchecked. -/
theorem claim_c3 (u : UnitMap) (identifier : String) (dom : List Element)
    (feature : Feature) (fs : List Feature) (e : RMEntry)
    (h : createReverseMapping u (feature.properties identifier) = some e) :
    ((∀ s ∈ getCheckboxStatuses dom (some e.cluster) (some e.coi), s.checked = true) →
      (watchTooltips u identifier).1 dom (feature :: fs) = some e.coi) ∧
    ((∃ s ∈ getCheckboxStatuses dom (some e.cluster) (some e.coi), s.checked = false) →
      (watchTooltips u identifier).1 dom (feature :: fs) = none) := by
  have hred : (watchTooltips u identifier).1 dom (feature :: fs) =
      (match createReverseMapping u (feature.properties identifier) with
        | some entry =>
          if checkIfAllVisible dom (some entry.cluster) (some entry.coi) then
            some entry.coi
          else none
        | none => none) := rfl
  rw [hred, h]
  constructor
  · intro hall
    show (if checkIfAllVisible dom (some e.cluster) (some e.coi) = true then
        some e.coi else none) = some e.coi
    rw [if_pos ((checkIfAllVisible_iff dom (some e.cluster) (some e.coi)).mpr hall)]
  · intro hex
    have hnot : ¬ (checkIfAllVisible dom (some e.cluster) (some e.coi) = true) := by
      intro hck
      have hall := (checkIfAllVisible_iff dom (some e.cluster) (some e.coi)).mp hck
      obtain ⟨s, hs, hfalse⟩ := hex
      rw [hall s hs] at hfalse
      exact absurd hfalse (by decide)
    show (if checkIfAllVisible dom (some e.cluster) (some e.coi) = true then
        some e.coi else none) = none
    rw [if_neg hnot]

theorem claim_c3_witness :
    (watchTooltips sampleUnitMap "GEOID20").1 sampleDom [sampleFeature] =
      some ["k1", "k2"] :=
  (claim_c3 sampleUnitMap "GEOID20" sampleDom sampleFeature [] ⟨"c1", ["k1", "k2"]⟩
    (by decide)).1 (by decide)

/-- C4 counterexample: in one run of `CoiVisualizationPlugin`'s setup, the
reverse mapping is not built exactly once — at the sample unitMap the
session performs two `createReverseMapping` invocations (one in
`watchTooltips`, one in `onFeatureClicked`), so the invocation count is
not 1. -/
theorem claim_c4_counterexample :
    ¬ ((coiVisualizationPluginSetup "units" sampleUnitMap).2.2.length = 1) := by
  decide

/-- C4 amended: during one session the reverse mapping is built exactly
twice, both times from the session's unitMap: `watchTooltips` (line 192)
and `onFeatureClicked` (line 125) each invoke `createReverseMapping` once
on `unitMap`. -/
theorem claim_c4 (units : String) (unitMap : UnitMap) :
    (coiVisualizationPluginSetup units unitMap).2.2 = [unitMap, unitMap] :=
rfl

/-- C5: `createReverseMapping` is total on well-formed unit maps (it is a
plain function in the model), and the click handler's accesses
`reverseMapping[geoid]["cluster"]` / `["coi"]` succeed exactly when the
geoid is a key of the reverse mapping — equivalently, exactly when the
geoid occurs in the unitMap; a missing key is the only error source. -/
theorem claim_c5 (u : UnitMap) (g : Geoid) :
    ((∃ v, onFeatureClickedAccess (createReverseMapping u) g = Except.ok v) ↔
      (createReverseMapping u g).isSome = true) ∧
    ((createReverseMapping u g).isSome = true ↔ occursB u g = true) := by
  refine ⟨?_, rm_isSome_iff_occursB u g⟩
  unfold onFeatureClickedAccess
  cases h : createReverseMapping u g with
  | some e => simp
  | none => simp

theorem claim_c5_witness :
    ∃ v, onFeatureClickedAccess (createReverseMapping sampleUnitMap) "g2" =
      Except.ok v :=
  (claim_c5 sampleUnitMap "g2").1.mpr ((claim_c5 sampleUnitMap "g2").2.mpr (by decide))

/-- C6: `CutEdgesSection` is a stub — for all arguments it renders 0 cut
edges and an empty cut-edge list, the same constant output for any
inputs. -/
theorem claim_c6 {α β γ α2 β2 γ2 : Type} (state : α) (uiState : β) (dispatch : γ)
    (state2 : α2) (uiState2 : β2) (dispatch2 : γ2) :
    CutEdgesSection state uiState dispatch = ⟨0, []⟩ ∧
    CutEdgesSection state uiState dispatch = CutEdgesSection state2 uiState2 dispatch2 :=
  ⟨rfl, rfl⟩

/-- C7 counterexample: the claim that every invocation of the `displayCOIs`
callback sets the units layer's opacity fails — with no non-top-level
checkbox in the document (here the empty document) and `checked = true`,
the `setOpacity` call inside the loop never runs, so the layer opacity
stays at its prior value 0 instead of becoming 1/3. -/
theorem claim_c7_counterexample :
    ¬ ((displayCOIs [] 0 true).2 = 1/3) := by
  have h : (displayCOIs [] 0 true).2 = 0 := rfl
  rw [h]
  norm_num

/-- C7 amended: the callback sets every non-top-level retrieved checkbox's
pointer-events to "auto"/"none" and opacity to 1 or 1/2 according to
`checked`, and sets the layer opacity to 1/3 (checked) or 0 (unchecked)
provided at least one non-top-level checkbox is retrieved; with none
retrieved the layer opacity is left unchanged. -/
theorem claim_c7 (dom : List Element) (layerOpacity : ℚ) (checked : Bool) :
    displayCOIs dom layerOpacity checked =
      (dom.map (fun e =>
        if (((retrieveCheckboxes dom none).drop 1).map Element.id).contains e.id then
          { e with
            pointerEvents := if checked then "auto" else "none"
            opacity := if checked then 1 else 1/2 }
        else e),
       if ((retrieveCheckboxes dom none).drop 1).isEmpty then layerOpacity
       else if checked then 1/3 else 0) := by
  unfold displayCOIs
  refine Prod.ext ?_ ?_
  · rw [displayLoop_fst]
    rfl
  · rw [displayLoop_snd]
    have hmap : (((retrieveCheckboxes dom none).drop 1).map Element.id).isEmpty =
        ((retrieveCheckboxes dom none).drop 1).isEmpty := by
      cases (retrieveCheckboxes dom none).drop 1 <;> rfl
    rw [hmap]

/-- C8: when a geoid occurs in COIs of several clusters, its entry's
`cluster` field keeps only the last cluster iterated (later clusters
overwrite earlier ones — a single cluster identifier), while its `coi`
array accumulates the COI identifiers from all clusters. -/
theorem claim_c8 (u : UnitMap) (g : Geoid) (e : RMEntry)
    (h : createReverseMapping u g = some e) :
    lastOf (clustersContaining u g) = some e.cluster ∧ e.coi = coisOf g u := by
  have hchar := rm_char u g
  rw [h] at hchar
  cases hlast : lastOf (clustersContaining u g) with
  | none =>
    rw [hlast] at hchar
    exact Option.noConfusion hchar
  | some c =>
    rw [hlast] at hchar
    have hchar2 : some e = some (⟨c, coisOf g u⟩ : RMEntry) := hchar
    rw [Option.some.inj hchar2]
    exact ⟨rfl, rfl⟩

theorem claim_c8_witness :
    lastOf (clustersContaining sampleUnitMap2 "g1") = some "c2" ∧
      (["k1", "k2"] : List String) = coisOf "g1" sampleUnitMap2 :=
  claim_c8 sampleUnitMap2 "g1" ⟨"c2", ["k1", "k2"]⟩ (by decide)

/-- C9: the tooltip function returned by `watchTooltips` returns null on an
empty features array for every unitMap, identifier and document state; the
model is pure, so no state is touched on this path. -/
theorem claim_c9 (unitMap : UnitMap) (identifier : String) (dom : List Element) :
    (watchTooltips unitMap identifier).1 dom [] = none :=
rfl

/-- C10: `checkIfAllVisible` is true exactly when every gathered status is
checked (vacuously true on an empty status list), and with null `cois`
every checkbox having more than three CSS classes is skipped, so the
statuses are exactly those of the checkboxes with at most three classes. -/
theorem claim_c10 (dom : List Element) (cluster : Option String)
    (cois : Option (List String)) :
    (checkIfAllVisible dom cluster cois = true ↔
      ∀ s ∈ getCheckboxStatuses dom cluster cois, s.checked = true) ∧
    getCheckboxStatuses dom cluster none =
      ((retrieveCheckboxes dom cluster).filter
        (fun c => !(decide (c.classList.length > 3)))).map
        (fun c => ⟨cluster, c.classList[3]?, c.checked⟩) := by
  refine ⟨checkIfAllVisible_iff dom cluster cois, ?_⟩
  exact statusLoop_none cluster (retrieveCheckboxes dom cluster)

theorem claim_c10_witness : checkIfAllVisible sampleDom none none = true :=
  (claim_c10 sampleDom none none).1.mpr (by decide)
